import Mathlib

/-!
Verification of the concentrated-liquidity range and allocation calculator of
the `create_scalar_market` repository, against its natural-language
specification.

The embedding follows `src/utils/dex.ts` and `src/addLiquidity.ts`:

* JavaScript `number` values (prices, tolerances) are modelled as `ℚ`;
  `bigint` token amounts are modelled as `ℤ` (or `ℚ` once they enter the
  Uniswap SDK position math, which the source drives through rational-valued
  closed forms).  JavaScript `BigInt` division truncates toward zero, which is
  `Int.tdiv`; `Math.floor`/`Math.ceil` on exact values are `Int.floor` and
  negated floors.
* `priceToTick` in the source is `Math.floor(Math.log(price) / Math.log(1.0001))`,
  a floating-point transcendental computation.  It is modelled as an abstract
  parameter `priceToTick : ℚ → ℤ`; every theorem about `calculateTickBounds`
  holds for an arbitrary such function.
* The `@uniswap/v3-sdk` (`TickMath.getSqrtRatioAtTick`, `Position.fromAmount0`,
  `Position.fromAmount1`, `mintAmounts`) is an external npm dependency, not
  part of this repository.  Modelled from the spec: §4.4 describes the
  in-range allocation as "compute liquidity `L` that consumes exactly the
  budget of the one token, then derive the other token's amount from `L` and
  the √price bounds", i.e. the standard closed forms
  `amount0 = L·(√pU − √p)/(√p·√pU)` and `amount1 = L·(√p − √pL)` in exact
  rational arithmetic.  The tick → √price map is modelled as an abstract
  strictly-increasing positive function `sqrtRatioAtTick : ℤ → ℚ`.
-/

namespace ScalarMarket

/-- MIN_TICK of Uniswap `TickMath`, used by the source for clamping and
validation. -/
def MIN_TICK : ℤ := -887272

/-- MAX_TICK of Uniswap `TickMath`. -/
def MAX_TICK : ℤ := 887272

/-- JavaScript `Math.floor(t / s) * s` for integer `t` and positive integer
`s`: rounding `t` down to a multiple of `s`. -/
def floorAlign (t s : ℤ) : ℤ := t.fdiv s * s

/-- JavaScript `Math.ceil(t / s) * s` for integer `t` and positive integer
`s`: rounding `t` up to a multiple of `s`. -/
def ceilAlign (t s : ℤ) : ℤ := -((-t).fdiv s) * s

/-- Result type of `calculateTickBounds` in `src/utils/dex.ts`. -/
structure TickRange where
  tickLower : ℤ
  tickUpper : ℤ
deriving DecidableEq

/-- Embedding of `calculateTickBounds` (`src/utils/dex.ts`, lines 45-89).
`priceToTick` is the floating-point tick conversion, abstracted as a
parameter.  The source throws on a collapsed range (modelled as `none`),
clamps to `MIN_TICK`/`MAX_TICK` with `Math.max`/`Math.min`, and then re-aligns
both ticks to the tick spacing a second time. -/
def calculateTickBounds (priceToTick : ℚ → ℤ) (minPrice maxPrice : ℚ)
    (tickSpacing : ℤ) (isToken0Outcome : Bool) : Option TickRange :=
  let tickLower0 : ℤ :=
    if isToken0Outcome then floorAlign (priceToTick minPrice) tickSpacing
    else floorAlign (priceToTick (1 / maxPrice)) tickSpacing
  let tickUpper0 : ℤ :=
    if isToken0Outcome then ceilAlign (priceToTick maxPrice) tickSpacing
    else ceilAlign (priceToTick (1 / minPrice)) tickSpacing
  let tickLower1 : ℤ := max tickLower0 MIN_TICK
  let tickUpper1 : ℤ := min tickUpper0 MAX_TICK
  if tickLower1 ≥ tickUpper1 then none
  else some { tickLower := floorAlign tickLower1 tickSpacing
            , tickUpper := ceilAlign tickUpper1 tickSpacing }

lemma floorAlign_idem (t s : ℤ) (hs : s ≠ 0) :
    floorAlign (floorAlign t s) s = floorAlign t s := by
  unfold floorAlign
  rw [Int.mul_fdiv_cancel _ hs]

lemma ceilAlign_idem (t s : ℤ) (hs : s ≠ 0) :
    ceilAlign (ceilAlign t s) s = ceilAlign t s := by
  unfold ceilAlign
  rw [show -(-((-t).fdiv s) * s) = (-t).fdiv s * s by ring, Int.mul_fdiv_cancel _ hs]

/-- Claim C4: whenever `calculateTickBounds` returns and the spacing-aligned
ticks are strictly inside `[MIN_TICK, MAX_TICK]`, the returned `tickLower` is
`priceToTick(minPrice)` rounded down to a multiple of `tickSpacing` and
`tickUpper` is `priceToTick(maxPrice)` rounded up (orientation
`isToken0Outcome = true`); with `isToken0Outcome = false` the inverted prices
`1/maxPrice` and `1/minPrice` are used instead. -/
theorem calculateTickBounds_alignment_formula (priceToTick : ℚ → ℤ)
    (minPrice maxPrice : ℚ) (tickSpacing : ℤ) (isToken0Outcome : Bool)
    (r : TickRange) (hs : 0 < tickSpacing)
    (hlo : MIN_TICK < (if isToken0Outcome
        then floorAlign (priceToTick minPrice) tickSpacing
        else floorAlign (priceToTick (1 / maxPrice)) tickSpacing))
    (hhi : (if isToken0Outcome
        then ceilAlign (priceToTick maxPrice) tickSpacing
        else ceilAlign (priceToTick (1 / minPrice)) tickSpacing) < MAX_TICK)
    (hr : calculateTickBounds priceToTick minPrice maxPrice tickSpacing
        isToken0Outcome = some r) :
    r.tickLower = (if isToken0Outcome
        then floorAlign (priceToTick minPrice) tickSpacing
        else floorAlign (priceToTick (1 / maxPrice)) tickSpacing) ∧
    r.tickUpper = (if isToken0Outcome
        then ceilAlign (priceToTick maxPrice) tickSpacing
        else ceilAlign (priceToTick (1 / minPrice)) tickSpacing) := by
  simp only [calculateTickBounds] at hr
  by_cases h : isToken0Outcome = true
  · simp only [if_pos h] at hlo hhi hr ⊢
    rw [max_eq_left hlo.le, min_eq_left hhi.le] at hr
    split at hr
    · exact absurd hr (by simp)
    · rw [Option.some.injEq] at hr
      subst hr
      exact ⟨floorAlign_idem _ _ hs.ne', ceilAlign_idem _ _ hs.ne'⟩
  · simp only [if_neg h] at hlo hhi hr ⊢
    rw [max_eq_left hlo.le, min_eq_left hhi.le] at hr
    split at hr
    · exact absurd hr (by simp)
    · rw [Option.some.injEq] at hr
      subst hr
      exact ⟨floorAlign_idem _ _ hs.ne', ceilAlign_idem _ _ hs.ne'⟩

/-- Witness for C4 at a concrete input: `priceToTick` sending price `0` to
tick `-1000` and price `1` to tick `240`, spacing `60`. -/
theorem calculateTickBounds_alignment_formula_witness :
    calculateTickBounds (fun q : ℚ => if q.num = 0 then -1000 else 240)
        0 1 60 true = some ⟨-1020, 240⟩ ∧
    (TickRange.mk (-1020) 240).tickLower = floorAlign (-1000) 60 ∧
    (TickRange.mk (-1020) 240).tickUpper = ceilAlign 240 60 := by
  have h := calculateTickBounds_alignment_formula
    (fun q : ℚ => if q.num = 0 then -1000 else 240) 0 1 60 true
    ⟨-1020, 240⟩ (by decide) (by decide) (by decide) (by decide)
  exact ⟨by decide, by simpa using h.1, by simpa using h.2⟩

/-- Claim C5 is violated by the code: with a price extreme enough that the
lower tick is clamped to `MIN_TICK`, the final re-alignment step
(`src/utils/dex.ts` lines 83-84) pushes the clamped tick back OUT of
`[MIN_TICK, MAX_TICK]`: here `tickLower = -887280 < MIN_TICK = -887272`
(spacing 60 does not divide `MIN_TICK`).  The function's own comment says the
clamp "ensures ticks are within valid range". -/
theorem calculateTickBounds_realign_escapes_clamp :
    calculateTickBounds (fun q : ℚ => if q.num = 0 then -1000000000 else 0)
        0 1 60 true = some ⟨-887280, 0⟩ ∧
    (-887280 : ℤ) < MIN_TICK :=
  ⟨by decide, by decide⟩

/-- Embedding of `calculateMinAmounts` (`src/utils/dex.ts`, lines 121-131).
The factor is `BigInt(Math.floor((1 - slippageTolerance) * 10000))` and the
final division is `bigint` division, which truncates toward zero
(`Int.tdiv`).  The source performs no validation of the tolerance and has no
throw path, so the function is total.  The source evaluates the factor in
IEEE-double arithmetic; this definition idealizes that one step to an exact
rational floor, so it is used only at inputs where the double computation
agrees with the exact one (all the concrete inputs below do; e.g. at
`tolerance = 2` the product `(1-2)*10000 = -10000` is float-exact).
Statements that must hold for every value the floating-point factor can
take are phrased over `calculateMinAmountsWithFactor` instead. -/
def calculateMinAmounts (amount0Desired amount1Desired : ℤ)
    (slippageTolerance : ℚ) : ℤ × ℤ :=
  let factor : ℤ := ⌊(1 - slippageTolerance) * 10000⌋
  ((amount0Desired * factor).tdiv 10000, (amount1Desired * factor).tdiv 10000)

/-- The monetary computation of `calculateMinAmounts` with the factor
abstracted as its integer result: the source computes
`factor = BigInt(Math.floor((1 - slippageTolerance) * 10000))` in
IEEE-double arithmetic, which can deviate by one from the exact floor (at
`tolerance = 0.9` the double product is `999.9999999999998`, so the factor
is 999, not 1000).  The bigint arithmetic `(amountDesired * factor) / 10000n`
is modelled here for an arbitrary integer factor, so every theorem about it
holds for whatever factor the floating-point computation produces. -/
def calculateMinAmountsWithFactor (amount0Desired amount1Desired factor : ℤ) :
    ℤ × ℤ :=
  ((amount0Desired * factor).tdiv 10000, (amount1Desired * factor).tdiv 10000)

lemma calculateMinAmounts_eq_withFactor (a0 a1 : ℤ) (t : ℚ) :
    calculateMinAmounts a0 a1 t =
      calculateMinAmountsWithFactor a0 a1 ⌊(1 - t) * 10000⌋ := rfl

/-- Claim C8 as stated is false: for `tolerance = 1/20000` (five decimal
places) and `amount0Desired = 100000`, the code returns `99990`, but
`amount0Desired * (1 - tolerance)` truncated toward zero is `99995`.  The
intermediate factor `Math.floor((1 - tolerance) * 10000)` quantizes the
tolerance to 4 decimal places before the monetary multiplication. -/
theorem calculateMinAmounts_quantization_counterexample :
    calculateMinAmounts 100000 0 (1 / 20000) = (99990, 0) ∧
    ⌊(100000 : ℚ) * (1 - 1 / 20000)⌋ = 99995 := by
  constructor
  · unfold calculateMinAmounts
    rw [show ⌊((1 : ℚ) - 1 / 20000) * 10000⌋ = 9999 by
      rw [Int.floor_eq_iff] <;> norm_num]
    decide
  · rw [show (100000 : ℚ) * (1 - 1 / 20000) = ((99995 : ℤ) : ℚ) by norm_num]
    exact Int.floor_intCast _

/-- Claim C8, amended: the minimums are computed with integer arithmetic on
the monetary values — `amount * factor / 10000` with bigint division
truncating toward zero — for a factor obtained by a floating-point floor
that can deviate by one from the exact `⌊(1 − tolerance)·10000⌋` (tolerance
0.9 yields factor 999, so amount 1000 returns 99, not 100).  For every
factor that computation can produce: a zero desired amount yields a zero
minimum; for a nonnegative desired amount and a factor in `[0, 10000]` the
minimum is the floor of `amount·factor/10000` and never exceeds the desired
amount; and whenever the computed factor equals the exact `10000 − k` for a
tolerance `k/10000` — as at the spec's example `tolerance = 0.01`, where
the double product is `9900.000000000002` and the factor 9900 — the minimum
equals `amount * (1 − tolerance)` truncated toward zero. -/
theorem calculateMinAmounts_factor_truncation (a0 a1 factor : ℤ) (k : ℕ)
    (h0 : 0 ≤ a0) (hk : k ≤ 10000) :
    (calculateMinAmountsWithFactor 0 a1 factor).1 = 0 ∧
    (0 ≤ factor →
      (calculateMinAmountsWithFactor a0 a1 factor).1 =
        ⌊((a0 * factor : ℤ) : ℚ) / 10000⌋ ∧
      (factor ≤ 10000 → (calculateMinAmountsWithFactor a0 a1 factor).1 ≤ a0)) ∧
    (factor = 10000 - (k : ℤ) →
      (calculateMinAmountsWithFactor a0 a1 factor).1 =
        ⌊(a0 : ℚ) * (1 - (k : ℚ) / 10000)⌋) := by
  refine ⟨?_, fun hf => ⟨?_, fun hf2 => ?_⟩, fun hfk => ?_⟩
  · show ((0 : ℤ) * factor).tdiv 10000 = 0
    rw [zero_mul]
    exact Int.zero_tdiv _
  · show (a0 * factor).tdiv 10000 = _
    have hnum : 0 ≤ a0 * factor := mul_nonneg h0 hf
    rw [Int.tdiv_eq_ediv hnum (by norm_num)]
    rw [show ((a0 * factor : ℤ) : ℚ) / 10000 =
        ((a0 * factor : ℤ) : ℚ) / ((10000 : ℕ) : ℚ) by norm_num]
    rw [Rat.floor_intCast_div_natCast]
    norm_num
  · show (a0 * factor).tdiv 10000 ≤ a0
    have hnum : 0 ≤ a0 * factor := mul_nonneg h0 hf
    rw [Int.tdiv_eq_ediv hnum (by norm_num)]
    calc a0 * factor / 10000 ≤ a0 * 10000 / 10000 :=
          Int.ediv_le_ediv (by norm_num) (mul_le_mul_of_nonneg_left hf2 h0)
      _ = a0 := Int.mul_ediv_cancel a0 (by norm_num)
  · subst hfk
    show (a0 * (10000 - (k : ℤ))).tdiv 10000 = _
    have hnum : 0 ≤ a0 * (10000 - (k : ℤ)) := mul_nonneg h0 (by omega)
    rw [Int.tdiv_eq_ediv hnum (by norm_num)]
    rw [show (a0 : ℚ) * (1 - (k : ℚ) / 10000) =
        ((a0 * (10000 - (k : ℤ)) : ℤ) : ℚ) / ((10000 : ℕ) : ℚ) by push_cast; ring]
    rw [Rat.floor_intCast_div_natCast]
    norm_num

/-- Witness for C8's amended statement at the spec's concrete scenario:
factor 9900 — the value the program's double computation produces at
`tolerance = 0.01` — on desired amount 1000 gives minimum 990, the exact
truncation of `1000 · 0.99`. -/
theorem calculateMinAmounts_factor_truncation_witness :
    (calculateMinAmountsWithFactor 0 5 9900).1 = 0 ∧
    (calculateMinAmountsWithFactor 1000 5 9900).1 =
      ⌊((1000 * 9900 : ℤ) : ℚ) / 10000⌋ ∧
    (calculateMinAmountsWithFactor 1000 5 9900).1 ≤ 1000 ∧
    (calculateMinAmountsWithFactor 1000 5 9900).1 =
      ⌊((1000 : ℤ) : ℚ) * (1 - ((100 : ℕ) : ℚ) / 10000)⌋ ∧
    (calculateMinAmountsWithFactor 1000 5 9900).1 = 990 := by
  have h := calculateMinAmounts_factor_truncation 1000 5 9900 100
    (by norm_num) (by norm_num)
  exact ⟨h.1, (h.2.1 (by norm_num)).1, (h.2.1 (by norm_num)).2 (by norm_num),
    h.2.2 (by norm_num), by decide⟩

/-- Claim C9 is violated by the code: `calculateMinAmounts` has no validation
and no throw path; at `tolerance = 2` (outside `[0, 1)`) it still returns
minimum amounts — here negative ones. -/
theorem calculateMinAmounts_no_validation_counterexample :
    calculateMinAmounts 1000 1000 2 = (-1000, -1000) := by
  unfold calculateMinAmounts
  rw [show ⌊((1 : ℚ) - 2) * 10000⌋ = -10000 by
    rw [show ((1 : ℚ) - 2) * 10000 = ((-10000 : ℤ) : ℚ) by norm_num]
    exact Int.floor_intCast _]
  decide

/-- Claim C9, amended: `calculateMinAmounts` does not validate the slippage
tolerance.  For every tolerance outside `[0, 1)` it still returns the pair
computed with the factor `Math.floor((1 - tolerance) * 10000)`; in
particular, for `tolerance ≥ 1` a nonnegative desired amount produces a
nonpositive minimum instead of an error. -/
theorem calculateMinAmounts_total (a0 a1 : ℤ) (t : ℚ) (h : t < 0 ∨ 1 ≤ t) :
    calculateMinAmounts a0 a1 t =
      ((a0 * ⌊(1 - t) * 10000⌋).tdiv 10000, (a1 * ⌊(1 - t) * 10000⌋).tdiv 10000) ∧
    (1 ≤ t → 0 ≤ a0 → (calculateMinAmounts a0 a1 t).1 ≤ 0) := by
  refine ⟨rfl, fun ht ha => ?_⟩
  have hmul : (1 - t) * 10000 ≤ 0 := by nlinarith
  have hfac : ⌊(1 - t) * 10000⌋ ≤ 0 := Int.floor_nonpos hmul
  have hnum : a0 * ⌊(1 - t) * 10000⌋ ≤ 0 := by nlinarith
  show (a0 * ⌊(1 - t) * 10000⌋).tdiv 10000 ≤ 0
  have hpos : (0 : ℤ) ≤ (-(a0 * ⌊(1 - t) * 10000⌋)).tdiv 10000 :=
    Int.tdiv_nonneg (by linarith) (by norm_num)
  have hneg : (-(a0 * ⌊(1 - t) * 10000⌋)).tdiv 10000 =
      -((a0 * ⌊(1 - t) * 10000⌋).tdiv 10000) := Int.neg_tdiv _ _
  linarith [hneg ▸ hpos]

/-- Witness for C9's amended statement at `tolerance = 3`,
`amount0Desired = 7`. -/
theorem calculateMinAmounts_total_witness :
    calculateMinAmounts 7 5 3 =
      ((7 * ⌊((1 : ℚ) - 3) * 10000⌋).tdiv 10000, (5 * ⌊((1 : ℚ) - 3) * 10000⌋).tdiv 10000) ∧
    (calculateMinAmounts 7 5 3).1 ≤ 0 := by
  have h := calculateMinAmounts_total 7 5 3 (Or.inr (by norm_num))
  exact ⟨h.1, h.2 (by norm_num) (by norm_num)⟩

/-- JavaScript `toLowerCase` on one UTF-16 code unit, restricted to the ASCII
letters that occur in hex addresses: `A`-`Z` (65-90) map to `a`-`z`. -/
def lowerChar (c : ℕ) : ℕ := if 65 ≤ c ∧ c ≤ 90 then c + 32 else c

/-- JavaScript `string.toLowerCase()` on a string modelled as its list of
UTF-16 code units. -/
def lowerStr (s : List ℕ) : List ℕ := s.map lowerChar

/-- JavaScript `<` on strings: lexicographic comparison of UTF-16 code
units, with a proper prefix comparing less. -/
def ltStr : List ℕ → List ℕ → Bool
  | [], [] => false
  | [], _ :: _ => true
  | _ :: _, [] => false
  | a :: as, b :: bs => if a < b then true else if b < a then false else ltStr as bs

/-- Embedding of `sortTokens` (`src/utils/dex.ts`, lines 136-143):
`tokenA.toLowerCase() < tokenB.toLowerCase() ? [tokenA, tokenB] : [tokenB, tokenA]`. -/
def sortTokens (tokenA tokenB : List ℕ) : List ℕ × List ℕ :=
  if ltStr (lowerStr tokenA) (lowerStr tokenB) then (tokenA, tokenB)
  else (tokenB, tokenA)

lemma ltStr_irrefl (s : List ℕ) : ltStr s s = false := by
  induction s with
  | nil => rfl
  | cons a as ih => simp [ltStr, ih]

lemma ltStr_asymm (s t : List ℕ) (h : ltStr s t = true) : ltStr t s = false := by
  induction s generalizing t with
  | nil =>
    cases t with
    | nil => rfl
    | cons b bs => rfl
  | cons a as ih =>
    cases t with
    | nil => exact absurd h (by simp [ltStr])
    | cons b bs =>
      rcases lt_trichotomy a b with hab | hab | hab
      · simp [ltStr, hab, asymm hab, not_lt_of_lt hab]
      · subst hab
        simp only [ltStr, lt_irrefl, if_false] at h ⊢
        exact ih bs h
      · simp [ltStr, hab, asymm hab, not_lt_of_lt hab] at h

lemma ltStr_total (s t : List ℕ) (h1 : ltStr s t = false) (h2 : ltStr t s = false) :
    s = t := by
  induction s generalizing t with
  | nil =>
    cases t with
    | nil => rfl
    | cons b bs => exact absurd h1 (by simp [ltStr])
  | cons a as ih =>
    cases t with
    | nil => exact absurd h2 (by simp [ltStr])
    | cons b bs =>
      rcases lt_trichotomy a b with hab | hab | hab
      · simp [ltStr, hab] at h1
      · subst hab
        simp only [ltStr, lt_irrefl, if_false] at h1 h2
        rw [ih bs h1 h2]
      · simp [ltStr, hab, asymm hab, not_lt_of_lt hab] at h2

/-- Claim C10: `sortTokens` returns `(a, b)` exactly when
`lowercase a < lowercase b` and `(b, a)` otherwise; for lowercase-distinct
addresses the result is independent of argument order, while two
case-variant spellings of the same address tie (the comparison is never
strictly less), so the argument order decides: `sortTokens a b = (b, a)` and
`sortTokens b a = (a, b)`. -/
theorem sortTokens_ordering (a b : List ℕ) :
    sortTokens a b = (if ltStr (lowerStr a) (lowerStr b) then (a, b) else (b, a)) ∧
    (lowerStr a ≠ lowerStr b → sortTokens a b = sortTokens b a) ∧
    (lowerStr a = lowerStr b → a ≠ b →
      sortTokens a b = (b, a) ∧ sortTokens b a = (a, b)) := by
  refine ⟨rfl, fun hne => ?_, fun heq _ => ?_⟩
  · unfold sortTokens
    rcases hab : ltStr (lowerStr a) (lowerStr b) with _ | _
    · rcases hba : ltStr (lowerStr b) (lowerStr a) with _ | _
      · exact absurd (ltStr_total _ _ hab hba) hne
      · simp [hba]
    · rw [if_pos rfl, ltStr_asymm _ _ hab]
      simp
  · unfold sortTokens
    rw [heq, ltStr_irrefl]
    simp

/-- Witness for C10 at the case-variant pair `0xAB` / `0xab` (code units). -/
theorem sortTokens_ordering_witness :
    sortTokens [48, 120, 65, 66] [48, 120, 97, 98] =
      ([48, 120, 97, 98], [48, 120, 65, 66]) ∧
    sortTokens [48, 120, 97, 98] [48, 120, 65, 66] =
      ([48, 120, 65, 66], [48, 120, 97, 98]) :=
  (sortTokens_ordering [48, 120, 65, 66] [48, 120, 97, 98]).2.2
    (by decide) (by decide)

/-- Minimal model of the `ChainConfig` consumed by `getTickSpacing`: only
`config.chain.id` is read. -/
structure ChainConfig where
  chainId : ℕ

/-- Embedding of `getTickSpacing` (`src/utils/dex.ts`, lines 94-113).  On
Gnosis (chain id 100) it always returns 60; otherwise it looks the fee up in
the Uniswap V3 table `{100 ↦ 1, 500 ↦ 10, 3000 ↦ 60, 10000 ↦ 200}` and throws
(`none`) on a miss. -/
def getTickSpacing (fee : ℤ) (config : ChainConfig) : Option ℤ :=
  if config.chainId = 100 then some 60
  else if fee = 100 then some 1
  else if fee = 500 then some 10
  else if fee = 3000 then some 60
  else if fee = 10000 then some 200
  else none

/-- Fee amounts of the Uniswap V3 SDK, as used by the two allocators. -/
inductive FeeAmount where
  | LOWEST
  | LOW
  | MEDIUM
  | HIGH
deriving DecidableEq

/-- Embedding of the `switch (feeTier)` mapping in both allocators
(`src/utils/dex.ts`, lines 188-207 and 326-344): unknown fee tiers fall
through to `FeeAmount.MEDIUM` with only a console warning. -/
def feeAmountOf (feeTier : ℤ) : FeeAmount :=
  if feeTier = 100 then FeeAmount.LOWEST
  else if feeTier = 500 then FeeAmount.LOW
  else if feeTier = 3000 then FeeAmount.MEDIUM
  else if feeTier = 10000 then FeeAmount.HIGH
  else FeeAmount.MEDIUM

/-- Pool range configuration produced by `calculateComplementaryRanges`
(`src/addLiquidity.ts`); the `poolName` string is omitted. -/
structure PoolRangeConfig where
  poolIndex : ℕ
  minPrice : ℚ
  maxPrice : ℚ
  initialPrice : ℚ

/-- Embedding of `calculateComplementaryRanges` (`src/addLiquidity.ts`,
lines 30-62).  Throws (`none`) unless `0 ≤ minPrice < maxPrice ≤ 1`; returns
the `[downRange, upRange]` array as a pair. -/
def calculateComplementaryRanges (minPrice maxPrice : ℚ) :
    Option (PoolRangeConfig × PoolRangeConfig) :=
  if minPrice ≥ maxPrice ∨ minPrice < 0 ∨ maxPrice > 1 then none
  else
    let upRange : PoolRangeConfig :=
      { poolIndex := 1, minPrice := minPrice, maxPrice := maxPrice
      , initialPrice := (minPrice + maxPrice) / 2 }
    let downMinPrice := 1 - maxPrice
    let downMaxPrice := 1 - minPrice
    let downRange : PoolRangeConfig :=
      { poolIndex := 0, minPrice := downMinPrice, maxPrice := downMaxPrice
      , initialPrice := (downMinPrice + downMaxPrice) / 2 }
    some (downRange, upRange)

/-- Claim C3: for `0 ≤ minPrice < maxPrice ≤ 1`, the Up range is
`[minPrice, maxPrice]` with midpoint initial price, the Down range is
`[1-maxPrice, 1-minPrice]` with midpoint initial price, and the two initial
prices sum to 1 within `1e-9` (in exact arithmetic the sum is exactly 1). -/
theorem calculateComplementaryRanges_complementary (minPrice maxPrice : ℚ)
    (h0 : 0 ≤ minPrice) (h1 : minPrice < maxPrice) (h2 : maxPrice ≤ 1) :
    calculateComplementaryRanges minPrice maxPrice =
      some ({ poolIndex := 0, minPrice := 1 - maxPrice, maxPrice := 1 - minPrice
            , initialPrice := ((1 - maxPrice) + (1 - minPrice)) / 2 },
            { poolIndex := 1, minPrice := minPrice, maxPrice := maxPrice
            , initialPrice := (minPrice + maxPrice) / 2 }) ∧
    |((1 - maxPrice) + (1 - minPrice)) / 2 + (minPrice + maxPrice) / 2 - 1| ≤
      1 / 1000000000 := by
  constructor
  · unfold calculateComplementaryRanges
    rw [if_neg]
    push_neg
    exact ⟨h1, h0, h2⟩
  · rw [show ((1 - maxPrice) + (1 - minPrice)) / 2 + (minPrice + maxPrice) / 2 - 1
        = (0 : ℚ) by ring]
    norm_num

/-- Witness for C3 at the spec's concrete scenario `minPrice = 0.05`,
`maxPrice = 0.95`. -/
theorem calculateComplementaryRanges_complementary_witness :
    calculateComplementaryRanges (1/20) (19/20) =
      some ({ poolIndex := 0, minPrice := 1 - 19/20, maxPrice := 1 - 1/20
            , initialPrice := ((1 - 19/20) + (1 - 1/20)) / 2 },
            { poolIndex := 1, minPrice := 1/20, maxPrice := 19/20
            , initialPrice := (1/20 + 19/20) / 2 }) ∧
    |((1 - (19:ℚ)/20) + (1 - 1/20)) / 2 + (1/20 + 19/20) / 2 - 1| ≤
      1 / 1000000000 :=
  calculateComplementaryRanges_complementary (1/20) (19/20)
    (by norm_num) (by norm_num) (by norm_num)

/-- Modelled from the spec: amount of token0 held by a position of liquidity
`L` between the current √price `sqrtP` and the upper bound `sqrtU`
(`amount0 = L·(√pU − √p)/(√p·√pU)`), the closed form the Uniswap SDK's
`mintAmounts` computes for an in-range position. -/
def amount0ForLiquidity (sqrtP sqrtU L : ℚ) : ℚ := L * (sqrtU - sqrtP) / (sqrtP * sqrtU)

/-- Modelled from the spec: amount of token1 held by a position of liquidity
`L` between the lower bound `sqrtL` and the current √price `sqrtP`
(`amount1 = L·(√p − √pL)`). -/
def amount1ForLiquidity (sqrtL sqrtP L : ℚ) : ℚ := L * (sqrtP - sqrtL)

/-- Modelled from the spec: the liquidity that consumes exactly `a1` of
token1 between `sqrtL` and `sqrtP` (inverse of `amount1ForLiquidity`). -/
def liquidityFromAmount1 (sqrtL sqrtP a1 : ℚ) : ℚ := a1 / (sqrtP - sqrtL)

/-- Modelled from the spec: the liquidity that consumes exactly `a0` of
token0 between `sqrtP` and `sqrtU` (inverse of `amount0ForLiquidity`). -/
def liquidityFromAmount0 (sqrtP sqrtU a0 : ℚ) : ℚ := a0 * (sqrtP * sqrtU) / (sqrtU - sqrtP)

/-- Modelled from the spec: `Position.fromAmount1({...}).mintAmounts` of the
Uniswap SDK for an in-range position — anchor the liquidity on a budget `a1`
of token1 and derive both mint amounts from it. -/
def positionFromAmount1 (sqrtL sqrtP sqrtU a1 : ℚ) : ℚ × ℚ :=
  (amount0ForLiquidity sqrtP sqrtU (liquidityFromAmount1 sqrtL sqrtP a1),
   amount1ForLiquidity sqrtL sqrtP (liquidityFromAmount1 sqrtL sqrtP a1))

/-- Modelled from the spec: `Position.fromAmount0({...}).mintAmounts` of the
Uniswap SDK for an in-range position — anchor the liquidity on a budget `a0`
of token0. -/
def positionFromAmount0 (sqrtL sqrtP sqrtU a0 : ℚ) : ℚ × ℚ :=
  (amount0ForLiquidity sqrtP sqrtU (liquidityFromAmount0 sqrtP sqrtU a0),
   amount1ForLiquidity sqrtL sqrtP (liquidityFromAmount0 sqrtP sqrtU a0))

/-- Result type of `calculateTokenAmountsForLiquidity`. -/
structure TokenAmountsResult where
  amount0 : ℚ
  amount1 : ℚ
  collateralNeeded : ℚ
  outcomeNeeded : ℚ

/-- Result type of `calculateLiquidityFromFixedTokens`. -/
structure FixedTokensResult where
  amount0 : ℚ
  amount1 : ℚ
  collateralUsed : ℚ
  outcomeUsed : ℚ

/-- Amount selection of Mode A (`src/utils/dex.ts`, lines 223-270): below
range all budget in token0, above range all in token1, otherwise the SDK
position anchored on the collateral-side budget. -/
def tokenAmounts (sqrtRatioAtTick : ℤ → ℚ) (currentTick tickLower tickUpper : ℤ)
    (totalValue : ℚ) (isToken0Outcome : Bool) : ℚ × ℚ :=
  if currentTick < tickLower then (totalValue, 0)
  else if currentTick ≥ tickUpper then (0, totalValue)
  else if isToken0Outcome then
    positionFromAmount1 (sqrtRatioAtTick tickLower) (sqrtRatioAtTick currentTick)
      (sqrtRatioAtTick tickUpper) totalValue
  else
    positionFromAmount0 (sqrtRatioAtTick tickLower) (sqrtRatioAtTick currentTick)
      (sqrtRatioAtTick tickUpper) totalValue

/-- Embedding of `calculateTokenAmountsForLiquidity` (`src/utils/dex.ts`,
lines 160-277).  Tick validation throws (`none`); the fee tier is mapped by
`feeAmountOf` (unknown tiers default to MEDIUM with a warning) and is passed
to the `Pool` constructor, which does not influence the returned amounts;
`tickSpacing`, `chainId` and the decimals likewise only parameterize SDK
object construction. -/
def calculateTokenAmountsForLiquidity (sqrtRatioAtTick : ℤ → ℚ)
    (currentTick tickLower tickUpper : ℤ) (totalValue : ℚ) (isToken0Outcome : Bool)
    (tickSpacing : ℤ) (chainId : ℕ) (feeTier : ℤ) (decimals0 decimals1 : ℕ) :
    Option TokenAmountsResult :=
  if tickLower ≥ tickUpper then none
  else if tickLower < MIN_TICK ∨ tickUpper > MAX_TICK then none
  else
    let p := tokenAmounts sqrtRatioAtTick currentTick tickLower tickUpper totalValue
      isToken0Outcome
    some { amount0 := p.1, amount1 := p.2
         , collateralNeeded := if isToken0Outcome then p.2 else p.1
         , outcomeNeeded := if isToken0Outcome then p.1 else p.2 }

/-- The `optimalPosition.mintAmounts` computation of Mode B
(`src/utils/dex.ts`, lines 390-406): the unconstrained optimum anchored on
`availableCollateral`, on whichever side holds the collateral. -/
def optimalMintAmounts (sqrtRatioAtTick : ℤ → ℚ) (currentTick tickLower tickUpper : ℤ)
    (availableCollateral : ℚ) (isToken0Outcome : Bool) : ℚ × ℚ :=
  if isToken0Outcome then
    positionFromAmount1 (sqrtRatioAtTick tickLower) (sqrtRatioAtTick currentTick)
      (sqrtRatioAtTick tickUpper) availableCollateral
  else
    positionFromAmount0 (sqrtRatioAtTick tickLower) (sqrtRatioAtTick currentTick)
      (sqrtRatioAtTick tickUpper) availableCollateral

/-- Amount selection of Mode B (`src/utils/dex.ts`, lines 360-450): the
single-sided branches draw from the supply matching the required side; the
double-sided branch clamps the optimum to the supplies and, when the
outcome side was reduced, recomputes the whole position anchored on the
reduced amount. -/
def fixedTokenAmounts (sqrtRatioAtTick : ℤ → ℚ) (currentTick tickLower tickUpper : ℤ)
    (availableCollateral availableOutcome : ℚ) (isToken0Outcome : Bool) : ℚ × ℚ :=
  if currentTick < tickLower then
    if isToken0Outcome then (availableOutcome, 0) else (availableCollateral, 0)
  else if currentTick ≥ tickUpper then
    if isToken0Outcome then (0, availableCollateral) else (0, availableOutcome)
  else
    let optimal := optimalMintAmounts sqrtRatioAtTick currentTick tickLower tickUpper
      availableCollateral isToken0Outcome
    if isToken0Outcome then
      let constrainedAmount0 :=
        if optimal.1 > availableOutcome then availableOutcome else optimal.1
      let constrainedAmount1 :=
        if optimal.2 > availableCollateral then availableCollateral else optimal.2
      if constrainedAmount0 < optimal.1 then
        positionFromAmount0 (sqrtRatioAtTick tickLower) (sqrtRatioAtTick currentTick)
          (sqrtRatioAtTick tickUpper) constrainedAmount0
      else (constrainedAmount0, constrainedAmount1)
    else
      let constrainedAmount0 :=
        if optimal.1 > availableCollateral then availableCollateral else optimal.1
      let constrainedAmount1 :=
        if optimal.2 > availableOutcome then availableOutcome else optimal.2
      if constrainedAmount1 < optimal.2 then
        positionFromAmount1 (sqrtRatioAtTick tickLower) (sqrtRatioAtTick currentTick)
          (sqrtRatioAtTick tickUpper) constrainedAmount1
      else (constrainedAmount0, constrainedAmount1)

/-- Embedding of `calculateLiquidityFromFixedTokens` (`src/utils/dex.ts`,
lines 297-459), with the same validation and parameter conventions as Mode
A. -/
def calculateLiquidityFromFixedTokens (sqrtRatioAtTick : ℤ → ℚ)
    (currentTick tickLower tickUpper : ℤ) (availableCollateral availableOutcome : ℚ)
    (isToken0Outcome : Bool) (tickSpacing : ℤ) (chainId : ℕ) (feeTier : ℤ)
    (decimals0 decimals1 : ℕ) : Option FixedTokensResult :=
  if tickLower ≥ tickUpper then none
  else if tickLower < MIN_TICK ∨ tickUpper > MAX_TICK then none
  else
    let p := fixedTokenAmounts sqrtRatioAtTick currentTick tickLower tickUpper
      availableCollateral availableOutcome isToken0Outcome
    some { amount0 := p.1, amount1 := p.2
         , collateralUsed := if isToken0Outcome then p.2 else p.1
         , outcomeUsed := if isToken0Outcome then p.1 else p.2 }

lemma positionFromAmount0_fst (sL sP sU a0 : ℚ) (hP : 0 < sP) (hU : 0 < sU)
    (hPU : sP < sU) : (positionFromAmount0 sL sP sU a0).1 = a0 := by
  unfold positionFromAmount0 amount0ForLiquidity liquidityFromAmount0
  have h1 : sU - sP ≠ 0 := sub_ne_zero.mpr hPU.ne'
  have h2 : sP * sU ≠ 0 := (mul_pos hP hU).ne'
  field_simp

lemma positionFromAmount1_snd_eq (sL sP sU a1 : ℚ) (hLP : sL < sP) :
    (positionFromAmount1 sL sP sU a1).2 = a1 := by
  unfold positionFromAmount1 amount1ForLiquidity liquidityFromAmount1
  exact div_mul_cancel₀ _ (sub_ne_zero.mpr hLP.ne')

lemma positionFromAmount1_snd_le (sL sP sU a1 : ℚ) (hLP : sL ≤ sP) (ha : 0 ≤ a1) :
    (positionFromAmount1 sL sP sU a1).2 ≤ a1 := by
  rcases eq_or_lt_of_le hLP with heq | hlt
  · unfold positionFromAmount1 amount1ForLiquidity liquidityFromAmount1
    rw [← heq, sub_self, div_zero, zero_mul]
    exact ha
  · rw [positionFromAmount1_snd_eq _ _ _ _ hlt]

/-- When the double-sided optimum (anchored on the collateral) demands more
token0 than `ao` and the position is re-anchored on `ao` of token0, the
re-derived token1 amount still fits in the collateral budget `ac`. -/
lemma recompute_collateral_le (sL sP sU ac ao : ℚ) (hP : 0 < sP) (hU : 0 < sU)
    (hLP : sL ≤ sP) (hPU : sP < sU) (hao : 0 ≤ ao)
    (hb : ao < (positionFromAmount1 sL sP sU ac).1) :
    (positionFromAmount0 sL sP sU ao).2 ≤ ac := by
  simp only [positionFromAmount1, positionFromAmount0, amount0ForLiquidity,
    amount1ForLiquidity, liquidityFromAmount0, liquidityFromAmount1] at hb ⊢
  rcases eq_or_lt_of_le hLP with heq | hlt
  · rw [← heq, sub_self, div_zero, zero_mul, zero_div] at hb
    exact absurd hb (not_lt.mpr hao)
  · have hdL : (0 : ℚ) < sP - sL := sub_pos.mpr hlt
    have hdU : (0 : ℚ) < sU - sP := sub_pos.mpr hPU
    rw [div_mul_eq_mul_div, div_div, lt_div_iff (by positivity)] at hb
    rw [div_mul_eq_mul_div, div_le_iff hdU]
    nlinarith [hb]

/-- Mirror-image of `recompute_collateral_le` for the orientation where the
collateral is token0 and the outcome side is token1. -/
lemma recompute_collateral_le' (sL sP sU ac ao : ℚ) (hP : 0 < sP) (hU : 0 < sU)
    (hLP : sL ≤ sP) (hPU : sP < sU) (hao : 0 ≤ ao)
    (hb : ao < (positionFromAmount0 sL sP sU ac).2) :
    (positionFromAmount1 sL sP sU ao).1 ≤ ac := by
  simp only [positionFromAmount1, positionFromAmount0, amount0ForLiquidity,
    amount1ForLiquidity, liquidityFromAmount0, liquidityFromAmount1] at hb ⊢
  rcases eq_or_lt_of_le hLP with heq | hlt
  · rw [← heq, sub_self, mul_zero] at hb
    exact absurd hb (not_lt.mpr hao)
  · have hdL : (0 : ℚ) < sP - sL := sub_pos.mpr hlt
    have hdU : (0 : ℚ) < sU - sP := sub_pos.mpr hPU
    rw [div_mul_eq_mul_div, lt_div_iff hdU] at hb
    rw [div_mul_eq_mul_div, div_div, div_le_iff (by positivity)]
    nlinarith [hb]

lemma fixedTokenAmounts_below (f : ℤ → ℚ) (ct tl tu : ℤ) (ac ao : ℚ) (o : Bool)
    (h1 : ct < tl) :
    fixedTokenAmounts f ct tl tu ac ao o = if o then (ao, 0) else (ac, 0) := by
  unfold fixedTokenAmounts
  rw [if_pos h1]

lemma fixedTokenAmounts_above (f : ℤ → ℚ) (ct tl tu : ℤ) (ac ao : ℚ) (o : Bool)
    (h1 : ¬ ct < tl) (h2 : ct ≥ tu) :
    fixedTokenAmounts f ct tl tu ac ao o = if o then (0, ac) else (0, ao) := by
  unfold fixedTokenAmounts
  rw [if_neg h1, if_pos h2]

lemma fixedTokenAmounts_binding_true (f : ℤ → ℚ) (ct tl tu : ℤ) (ac ao : ℚ)
    (h1 : ¬ ct < tl) (h2 : ¬ ct ≥ tu)
    (hb : ao < (optimalMintAmounts f ct tl tu ac true).1) :
    fixedTokenAmounts f ct tl tu ac ao true =
      positionFromAmount0 (f tl) (f ct) (f tu) ao := by
  unfold fixedTokenAmounts
  rw [if_neg h1, if_neg h2]
  simp only [if_pos rfl, gt_iff_lt, if_pos hb, if_true]

lemma fixedTokenAmounts_free_true (f : ℤ → ℚ) (ct tl tu : ℤ) (ac ao : ℚ)
    (h1 : ¬ ct < tl) (h2 : ¬ ct ≥ tu)
    (hb : ¬ ao < (optimalMintAmounts f ct tl tu ac true).1) :
    fixedTokenAmounts f ct tl tu ac ao true =
      ((optimalMintAmounts f ct tl tu ac true).1,
       if (optimalMintAmounts f ct tl tu ac true).2 > ac then ac
       else (optimalMintAmounts f ct tl tu ac true).2) := by
  unfold fixedTokenAmounts
  rw [if_neg h1, if_neg h2]
  simp only [if_pos rfl, gt_iff_lt, if_neg hb, lt_irrefl, if_false, if_true]

lemma fixedTokenAmounts_binding_false (f : ℤ → ℚ) (ct tl tu : ℤ) (ac ao : ℚ)
    (h1 : ¬ ct < tl) (h2 : ¬ ct ≥ tu)
    (hb : ao < (optimalMintAmounts f ct tl tu ac false).2) :
    fixedTokenAmounts f ct tl tu ac ao false =
      positionFromAmount1 (f tl) (f ct) (f tu) ao := by
  unfold fixedTokenAmounts
  rw [if_neg h1, if_neg h2]
  simp only [Bool.false_eq_true, if_false, gt_iff_lt, if_pos hb]

lemma fixedTokenAmounts_free_false (f : ℤ → ℚ) (ct tl tu : ℤ) (ac ao : ℚ)
    (h1 : ¬ ct < tl) (h2 : ¬ ct ≥ tu)
    (hb : ¬ ao < (optimalMintAmounts f ct tl tu ac false).2) :
    fixedTokenAmounts f ct tl tu ac ao false =
      (if (optimalMintAmounts f ct tl tu ac false).1 > ac then ac
       else (optimalMintAmounts f ct tl tu ac false).1,
       (optimalMintAmounts f ct tl tu ac false).2) := by
  unfold fixedTokenAmounts
  rw [if_neg h1, if_neg h2]
  simp only [Bool.false_eq_true, if_false, gt_iff_lt, if_neg hb, lt_irrefl]

/-- Claim C6: in Mode A, for every valid tick range, `currentTick < tickLower`
puts the whole budget in `amount0` with `amount1 = 0`, and
`currentTick ≥ tickUpper` puts it all in `amount1`; the nonzero amount equals
the budget exactly, and `collateralNeeded`/`outcomeNeeded` select
`amount0`/`amount1` according to `isToken0Outcome`. -/
theorem calculateTokenAmountsForLiquidity_single_sided (f : ℤ → ℚ)
    (ct tl tu : ℤ) (v : ℚ) (o : Bool) (ts : ℤ) (cid : ℕ) (fee : ℤ) (d0 d1 : ℕ)
    (h1 : tl < tu) (h2 : MIN_TICK ≤ tl) (h3 : tu ≤ MAX_TICK) :
    (ct < tl → calculateTokenAmountsForLiquidity f ct tl tu v o ts cid fee d0 d1 =
      some { amount0 := v, amount1 := 0
           , collateralNeeded := if o then 0 else v
           , outcomeNeeded := if o then v else 0 }) ∧
    (ct ≥ tu → calculateTokenAmountsForLiquidity f ct tl tu v o ts cid fee d0 d1 =
      some { amount0 := 0, amount1 := v
           , collateralNeeded := if o then v else 0
           , outcomeNeeded := if o then 0 else v }) := by
  constructor
  · intro hc
    unfold calculateTokenAmountsForLiquidity tokenAmounts
    rw [if_neg (not_le.mpr h1), if_neg (by push_neg; exact ⟨h2, h3⟩), if_pos hc]
  · intro hc
    unfold calculateTokenAmountsForLiquidity tokenAmounts
    rw [if_neg (not_le.mpr h1), if_neg (by push_neg; exact ⟨h2, h3⟩),
      if_neg (not_lt.mpr ((le_of_lt h1).trans hc)), if_pos hc]

/-- Witness for C6 at the spec's concrete scenario: `currentTick = 1000`,
`tickLower = 2000`, `tickUpper = 3000`, `totalValue = 100`,
`isToken0Outcome = true` gives `amount0 = 100`, `amount1 = 0`,
`collateralNeeded = 0`, `outcomeNeeded = 100`. -/
theorem calculateTokenAmountsForLiquidity_single_sided_witness :
    calculateTokenAmountsForLiquidity (fun _ => 1) 1000 2000 3000 100 true
      60 8453 3000 18 18 =
      some { amount0 := 100, amount1 := 0
           , collateralNeeded := 0, outcomeNeeded := 100 } := by
  have h := (calculateTokenAmountsForLiquidity_single_sided (fun _ => (1 : ℚ))
    1000 2000 3000 100 true 60 8453 3000 18 18
    (by decide) (by decide) (by decide)).1 (by decide)
  simpa using h

/-- Claim C7 as stated is false at two points: on Gnosis (chain id 100)
`getTickSpacing` returns 60 for ANY fee tier instead of throwing, and
`calculateTokenAmountsForLiquidity` with the unknown fee tier 1234 proceeds
(returns a result) instead of rejecting. -/
theorem getTickSpacing_unknown_fee_counterexample :
    getTickSpacing 250 { chainId := 100 } = some 60 ∧
    (calculateTokenAmountsForLiquidity (fun _ => 1) 1000 2000 3000 100 true
      60 8453 1234 18 18).isSome = true :=
  ⟨by decide, by decide⟩

/-- Claim C7, amended: on Gnosis (chain id 100) `getTickSpacing` returns 60
for every fee tier; on other chains it returns 1/10/60/200 for the known
tiers and throws for unknown ones.  The two allocators never reject a fee
tier: the `switch` maps unknown tiers to `FeeAmount.MEDIUM` (the 3000
mapping) with only a console warning and the computation proceeds. -/
theorem getTickSpacing_policy (fee : ℤ) (config : ChainConfig) :
    (config.chainId = 100 → getTickSpacing fee config = some 60) ∧
    (config.chainId ≠ 100 → fee ≠ 100 → fee ≠ 500 → fee ≠ 3000 → fee ≠ 10000 →
      getTickSpacing fee config = none) ∧
    (config.chainId ≠ 100 →
      getTickSpacing 100 config = some 1 ∧ getTickSpacing 500 config = some 10 ∧
      getTickSpacing 3000 config = some 60 ∧ getTickSpacing 10000 config = some 200) ∧
    (fee ≠ 100 → fee ≠ 500 → fee ≠ 3000 → fee ≠ 10000 →
      feeAmountOf fee = FeeAmount.MEDIUM) ∧
    (∀ (f : ℤ → ℚ) (ct tl tu : ℤ) (v ac ao : ℚ) (o : Bool) (ts : ℤ)
      (cid d0 d1 : ℕ), tl < tu → MIN_TICK ≤ tl → tu ≤ MAX_TICK →
      (calculateTokenAmountsForLiquidity f ct tl tu v o ts cid fee d0 d1).isSome
        = true ∧
      (calculateLiquidityFromFixedTokens f ct tl tu ac ao o ts cid fee d0 d1).isSome
        = true) := by
  refine ⟨fun h => ?_, fun h h1 h2 h3 h4 => ?_, fun h => ?_,
    fun h1 h2 h3 h4 => ?_, ?_⟩
  · unfold getTickSpacing
    rw [if_pos h]
  · unfold getTickSpacing
    rw [if_neg h, if_neg h1, if_neg h2, if_neg h3, if_neg h4]
  · unfold getTickSpacing
    refine ⟨?_, ?_, ?_, ?_⟩ <;> rw [if_neg h] <;> norm_num
  · unfold feeAmountOf
    rw [if_neg h1, if_neg h2, if_neg h3, if_neg h4]
  · intro f ct tl tu v ac ao o ts cid d0 d1 hlt hmin hmax
    constructor
    · unfold calculateTokenAmountsForLiquidity
      rw [if_neg (not_le.mpr hlt), if_neg (by push_neg; exact ⟨hmin, hmax⟩)]
      rfl
    · unfold calculateLiquidityFromFixedTokens
      rw [if_neg (not_le.mpr hlt), if_neg (by push_neg; exact ⟨hmin, hmax⟩)]
      rfl

/-- Witness for C7's amended statement: fee 250 on chain 1 throws in
`getTickSpacing`, maps to MEDIUM in the allocators, and Mode B still returns
a result. -/
theorem getTickSpacing_policy_witness :
    getTickSpacing 250 { chainId := 1 } = none ∧
    feeAmountOf 250 = FeeAmount.MEDIUM ∧
    (calculateLiquidityFromFixedTokens (fun _ => 1) 1000 2000 3000 50 10 true
      60 8453 250 18 18).isSome = true := by
  refine ⟨?_, ?_, ?_⟩
  · exact (getTickSpacing_policy 250 ⟨1⟩).2.1 (by decide) (by decide) (by decide)
      (by decide) (by decide)
  · exact (getTickSpacing_policy 250 ⟨1⟩).2.2.2.1 (by decide) (by decide)
      (by decide) (by decide)
  · exact ((getTickSpacing_policy 250 ⟨1⟩).2.2.2.2 (fun _ => 1) 1000 2000 3000
      100 50 10 true 60 8453 18 18 (by decide) (by decide) (by decide)).2

/-- Claim C1: Mode B conservation — for every valid tick range, every current
tick, both orientations and all (nonnegative) supplies, the returned
`collateralUsed` never exceeds `availableCollateral` and `outcomeUsed` never
exceeds `availableOutcome`. -/
theorem calculateLiquidityFromFixedTokens_conservation (f : ℤ → ℚ)
    (ct tl tu : ℤ) (ac ao : ℚ) (o : Bool) (ts : ℤ) (cid : ℕ) (fee : ℤ)
    (d0 d1 : ℕ) (r : FixedTokensResult)
    (hf : StrictMono f) (hfpos : ∀ t, 0 < f t) (hac : 0 ≤ ac) (hao : 0 ≤ ao)
    (hr : calculateLiquidityFromFixedTokens f ct tl tu ac ao o ts cid fee
      d0 d1 = some r) :
    r.collateralUsed ≤ ac ∧ r.outcomeUsed ≤ ao := by
  unfold calculateLiquidityFromFixedTokens at hr
  split at hr
  · exact absurd hr (by simp)
  split at hr
  · exact absurd hr (by simp)
  rw [Option.some.injEq] at hr
  subst hr
  dsimp only
  by_cases h1 : ct < tl
  · rw [fixedTokenAmounts_below f ct tl tu ac ao o h1]
    cases o <;> simp [hac, hao]
  · by_cases h2 : ct ≥ tu
    · rw [fixedTokenAmounts_above f ct tl tu ac ao o h1 h2]
      cases o <;> simp [hac, hao]
    · have hLP : f tl ≤ f ct := hf.monotone (not_lt.mp h1)
      have hPU : f ct < f tu := hf (not_le.mp h2)
      cases o
      · simp only [Bool.false_eq_true, if_false]
        by_cases hb : ao < (optimalMintAmounts f ct tl tu ac false).2
        · rw [fixedTokenAmounts_binding_false f ct tl tu ac ao h1 h2 hb]
          constructor
          · exact recompute_collateral_le' (f tl) (f ct) (f tu) ac ao
              (hfpos ct) (hfpos tu) hLP hPU hao hb
          · exact positionFromAmount1_snd_le _ _ _ _ hLP hao
        · rw [fixedTokenAmounts_free_false f ct tl tu ac ao h1 h2 hb]
          constructor
          · by_cases hc : (optimalMintAmounts f ct tl tu ac false).1 > ac
            · simp [if_pos hc]
            · simp only [if_neg hc]
              exact not_lt.mp hc
          · exact not_lt.mp hb
      · simp only [if_pos rfl]
        by_cases hb : ao < (optimalMintAmounts f ct tl tu ac true).1
        · rw [fixedTokenAmounts_binding_true f ct tl tu ac ao h1 h2 hb]
          constructor
          · exact recompute_collateral_le (f tl) (f ct) (f tu) ac ao
              (hfpos ct) (hfpos tu) hLP hPU hao hb
          · exact le_of_eq (positionFromAmount0_fst (f tl) (f ct) (f tu) ao
              (hfpos ct) (hfpos tu) hPU)
        · rw [fixedTokenAmounts_free_true f ct tl tu ac ao h1 h2 hb]
          constructor
          · by_cases hc : (optimalMintAmounts f ct tl tu ac true).2 > ac
            · simp [if_pos hc]
            · simp only [if_neg hc]
              exact not_lt.mp hc
          · exact not_lt.mp hb

/-- Witness for C1: with √price `2^t`, range `[-1, 1]`, current tick 0,
`availableCollateral = 50`, `availableOutcome = 10`, Mode B is
outcome-constrained and returns `⟨10, 10, 10, 10⟩`, within both supplies. -/
theorem calculateLiquidityFromFixedTokens_conservation_witness :
    calculateLiquidityFromFixedTokens (fun t : ℤ => (2 : ℚ) ^ t) 0 (-1) 1
      50 10 true 60 8453 3000 18 18 = some ⟨10, 10, 10, 10⟩ ∧
    ((10 : ℚ) ≤ 50 ∧ (10 : ℚ) ≤ 10) := by
  have heval : calculateLiquidityFromFixedTokens (fun t : ℤ => (2 : ℚ) ^ t)
      0 (-1) 1 50 10 true 60 8453 3000 18 18 = some ⟨10, 10, 10, 10⟩ := by
    norm_num [calculateLiquidityFromFixedTokens, fixedTokenAmounts,
      optimalMintAmounts, positionFromAmount1, positionFromAmount0,
      amount0ForLiquidity, amount1ForLiquidity, liquidityFromAmount0,
      liquidityFromAmount1, MIN_TICK, MAX_TICK]
  refine ⟨heval, ?_⟩
  have h := calculateLiquidityFromFixedTokens_conservation
    (fun t : ℤ => (2 : ℚ) ^ t) 0 (-1) 1 50 10 true 60 8453 3000 18 18
    ⟨10, 10, 10, 10⟩ (zpow_right_strictMono₀ (by norm_num))
    (fun t => by positivity) (by norm_num) (by norm_num) heval
  simpa using h

/-- Claim C2: in Mode B's double-sided case, whenever the unconstrained
optimum anchored on `availableCollateral` demands more outcome tokens than
`availableOutcome`, the whole position is re-derived anchored on the capped
outcome amount: the returned `amount0` and `amount1` are the two closed-form
amounts of a single liquidity value `L` at the current √price and bounds, and
the outcome side uses exactly `availableOutcome`. -/
theorem calculateLiquidityFromFixedTokens_rederives (f : ℤ → ℚ)
    (ct tl tu : ℤ) (ac ao : ℚ) (o : Bool) (ts : ℤ) (cid : ℕ) (fee : ℤ)
    (d0 d1 : ℕ)
    (hf : StrictMono f) (hfpos : ∀ t, 0 < f t) (hao : 0 ≤ ao)
    (h1 : tl ≤ ct) (h2 : ct < tu) (h3 : MIN_TICK ≤ tl) (h4 : tu ≤ MAX_TICK)
    (hb : ao < (if o then (optimalMintAmounts f ct tl tu ac o).1
                else (optimalMintAmounts f ct tl tu ac o).2)) :
    ∃ (r : FixedTokensResult) (L : ℚ),
      calculateLiquidityFromFixedTokens f ct tl tu ac ao o ts cid fee d0 d1 =
        some r ∧
      r.amount0 = amount0ForLiquidity (f ct) (f tu) L ∧
      r.amount1 = amount1ForLiquidity (f tl) (f ct) L ∧
      r.outcomeUsed = ao := by
  have hLP : f tl ≤ f ct := hf.monotone h1
  have hPU : f ct < f tu := hf h2
  have hnl : ¬ ct < tl := not_lt.mpr h1
  have hng : ¬ ct ≥ tu := not_le.mpr h2
  have hval1 : ¬ tl ≥ tu := not_le.mpr (lt_of_le_of_lt h1 h2)
  have hval2 : ¬ (tl < MIN_TICK ∨ tu > MAX_TICK) := by
    push_neg
    exact ⟨h3, h4⟩
  cases o
  · simp only [Bool.false_eq_true, if_false] at hb
    have hsls : f tl < f ct := by
      rcases eq_or_lt_of_le hLP with heq | hlt
      · exfalso
        have hz : (optimalMintAmounts f ct tl tu ac false).2 = 0 := by
          simp only [optimalMintAmounts, Bool.false_eq_true, if_false,
            positionFromAmount0, amount1ForLiquidity]
          rw [← heq, sub_self, mul_zero]
        rw [hz] at hb
        exact absurd hb (not_lt.mpr hao)
      · exact hlt
    refine ⟨{ amount0 := (positionFromAmount1 (f tl) (f ct) (f tu) ao).1
            , amount1 := (positionFromAmount1 (f tl) (f ct) (f tu) ao).2
            , collateralUsed := (positionFromAmount1 (f tl) (f ct) (f tu) ao).1
            , outcomeUsed := (positionFromAmount1 (f tl) (f ct) (f tu) ao).2 },
        liquidityFromAmount1 (f tl) (f ct) ao, ?_, rfl, rfl, ?_⟩
    · unfold calculateLiquidityFromFixedTokens
      rw [if_neg hval1, if_neg hval2,
        fixedTokenAmounts_binding_false f ct tl tu ac ao hnl hng hb]
      rfl
    · exact positionFromAmount1_snd_eq (f tl) (f ct) (f tu) ao hsls
  · replace hb : ao < (optimalMintAmounts f ct tl tu ac true).1 := hb
    refine ⟨{ amount0 := (positionFromAmount0 (f tl) (f ct) (f tu) ao).1
            , amount1 := (positionFromAmount0 (f tl) (f ct) (f tu) ao).2
            , collateralUsed := (positionFromAmount0 (f tl) (f ct) (f tu) ao).2
            , outcomeUsed := (positionFromAmount0 (f tl) (f ct) (f tu) ao).1 },
        liquidityFromAmount0 (f ct) (f tu) ao, ?_, rfl, rfl, ?_⟩
    · unfold calculateLiquidityFromFixedTokens
      rw [if_neg hval1, if_neg hval2,
        fixedTokenAmounts_binding_true f ct tl tu ac ao hnl hng hb]
      rfl
    · exact positionFromAmount0_fst (f tl) (f ct) (f tu) ao
        (hfpos ct) (hfpos tu) hPU

/-- Witness for C2 at the spec's concrete scenario: supplies 50 collateral
and 10 outcome with an optimum demanding 50 outcome — the position is
re-anchored on all 10 outcome tokens. -/
theorem calculateLiquidityFromFixedTokens_rederives_witness :
    ∃ (r : FixedTokensResult) (L : ℚ),
      calculateLiquidityFromFixedTokens (fun t : ℤ => (2 : ℚ) ^ t) 0 (-1) 1
        50 10 true 60 8453 3000 18 18 = some r ∧
      r.amount0 = amount0ForLiquidity ((2 : ℚ) ^ (0 : ℤ)) ((2 : ℚ) ^ (1 : ℤ)) L ∧
      r.amount1 = amount1ForLiquidity ((2 : ℚ) ^ (-1 : ℤ)) ((2 : ℚ) ^ (0 : ℤ)) L ∧
      r.outcomeUsed = 10 :=
  calculateLiquidityFromFixedTokens_rederives (fun t : ℤ => (2 : ℚ) ^ t)
    0 (-1) 1 50 10 true 60 8453 3000 18 18
    (zpow_right_strictMono₀ (by norm_num)) (fun t => by positivity)
    (by norm_num) (by norm_num) (by norm_num) (by decide) (by decide)
    (by norm_num [optimalMintAmounts, positionFromAmount1,
      amount0ForLiquidity, liquidityFromAmount1])

end ScalarMarket
